import Mathlib

/-!
# Verification of the `ircstatus` relay against its specification

This file gives a shallow embedding, in Lean 4, of the parts of the
`ircstatus` repository (ircstatus.go, makepipe.go, savehelp.go) that the
checked claims are about:

* the line chunker `ArrayOfShortStrings` (ircstatus.go),
* the regular expressions `reChannelJoined` / `reNickInUse` and a
  Brzozowski-derivative matcher standing in for Go's `regexp.MatchString`,
* the main event loop (`mymain` / `handleEvent`) as a state-transition
  system driven by an oracle for the connection, pipe, and transport
  outcomes,
* the PING handler of the historical `reader` goroutine together with the
  relevant fragment of Go's `fmt` formatting semantics,
* `createPipe` (makepipe.go) over an abstract file system.

Go `int`s appear only as non-negative sizes and are embedded as `Nat`;
strings are embedded as `String` or as `List Char` (Go runes), with byte
lengths computed by `Char.utf8Size`.
-/

namespace Ircstatus

/-! ## Runes and byte lengths

Go's `len(string(r))` for a rune `r` is the UTF-8 encoding size, which is
`Char.utf8Size` in Lean.  `strLen` is Go's `len(s)` (byte length) applied
to an already-decoded rune list. -/

def runeLen (c : Char) : Nat := c.utf8Size

def strLen (s : List Char) : Nat := (s.map runeLen).sum

/-! ## `ArrayOfShortStrings` (ircstatus.go, lines 836–865)

```go
func ArrayOfShortStrings(s string, l int) []string {
        if len(s) <= l { return []string{s} }
        nsmaller := int(math.Ceil(float64(len(s) / l)))   // capacity only
        o := make([]string, 0, 2*nsmaller)                // capacity only
        r := []rune(s)
        w := ""
        for i := 0; i < len(r); i++ {
                if len(string(r[i])) > l { r[i] = '?' }
                if len(w+string(r[i])) > l { o = append(o, w); w = "" }
                w += string(r[i])
        }
        return append(o, w)
}
```

`nsmaller` and the slice capacity do not affect the returned value and are
not modelled.  `replaceBig` is the in-loop replacement of a rune whose
UTF-8 encoding is larger than the budget by `'?'`. -/

def replaceBig (l : Nat) (c : Char) : Char :=
  if runeLen c > l then '?' else c

def aossLoop (l : Nat) (w : List Char) : List Char → List (List Char)
  | [] => [w]
  | c :: cs =>
    if strLen (w ++ [replaceBig l c]) > l then
      w :: aossLoop l [replaceBig l c] cs
    else
      aossLoop l (w ++ [replaceBig l c]) cs

def ArrayOfShortStrings (s : List Char) (l : Nat) : List (List Char) :=
  if strLen s ≤ l then [s] else aossLoop l [] s

/-- The same accumulator loop without the in-loop rune replacement; used in
proofs, where `aossLoop` on `s` is rewritten to `noRepLoop` on
`s.map (replaceBig l)`. -/
def noRepLoop (l : Nat) (w : List Char) : List Char → List (List Char)
  | [] => [w]
  | c :: cs =>
    if strLen (w ++ [c]) > l then
      w :: noRepLoop l [c] cs
    else
      noRepLoop l (w ++ [c]) cs

/-! ## The inbound-line patterns (ircstatus.go, lines 437–438)

```go
const reChannelJoined = `(:\S+ )?353 .*\S+ `
const reNickInUse = `(:\S+ )?433 .*\S+ :Nickname is already in use\.?`
```

The two patterns are transliterated into a small regular-expression AST,
and `regexp.MatchString` (an unanchored search) is embedded as a total
match of `Σ* · r · Σ*` decided by Brzozowski derivatives.  Per Go's
`regexp` syntax, `\S` is the complement of `[\t\n\f\r ]` and `.` matches
any character except newline. -/

inductive RE where
  | emptyset : RE
  | epsilon : RE
  | cls (f : Char → Bool) : RE
  | cat (r1 r2 : RE) : RE
  | alt (r1 r2 : RE) : RE
  | star (r : RE) : RE

namespace RE

def nullable : RE → Bool
  | emptyset => false
  | epsilon => true
  | cls _ => false
  | cat r1 r2 => nullable r1 && nullable r2
  | alt r1 r2 => nullable r1 || nullable r2
  | star _ => true

/-- Language-preserving smart constructor for concatenation. -/
def catS : RE → RE → RE
  | emptyset, _ => emptyset
  | _, emptyset => emptyset
  | epsilon, r => r
  | r, epsilon => r
  | r1, r2 => cat r1 r2

/-- Language-preserving smart constructor for alternation. -/
def altS : RE → RE → RE
  | emptyset, r => r
  | r, emptyset => r
  | r1, r2 => alt r1 r2

def deriv : RE → Char → RE
  | emptyset, _ => emptyset
  | epsilon, _ => emptyset
  | cls f, c => if f c then epsilon else emptyset
  | cat r1 r2, c =>
      if nullable r1 then altS (catS (deriv r1 c) r2) (deriv r2 c)
      else catS (deriv r1 c) r2
  | alt r1 r2, c => altS (deriv r1 c) (deriv r2 c)
  | star r, c => catS (deriv r c) (star r)

/-- Total match of `r` against the whole of `s`. -/
def matchFull (r : RE) (s : List Char) : Bool :=
  nullable (s.foldl deriv r)

end RE

def chr (c : Char) : RE := RE.cls (fun d => d = c)

def litRE : List Char → RE
  | [] => RE.epsilon
  | c :: cs => RE.cat (chr c) (litRE cs)

def plusRE (r : RE) : RE := RE.cat r (RE.star r)

def optRE (r : RE) : RE := RE.alt r RE.epsilon

/-- Go regexp `\s`: the character class `[\t\n\f\r ]`. -/
def goSpace (c : Char) : Bool :=
  c = ' ' || c = '\t' || c = '\n' || c = '\x0c' || c = '\r'

/-- Go regexp `\S`. -/
def clsNonSpace : RE := RE.cls (fun c => !goSpace c)

/-- Go regexp `.` (any character except newline, no `s` flag is set). -/
def dotRE : RE := RE.cls (fun c => !(c = '\n'))

/-- Any character at all; used to embed the unanchored search. -/
def anyRE : RE := RE.cls (fun _ => true)

/-- `regexp.MatchString` is an unanchored search: some substring of `s`
matches `r`, i.e. `Σ* r Σ*` matches all of `s`. -/
def matchString (r : RE) (s : String) : Bool :=
  RE.matchFull (RE.cat (RE.star anyRE) (RE.cat r (RE.star anyRE))) s.data

/-- The pattern `(:\S+ )?353 .*\S+ ` of `reChannelJoined`. -/
def reChannelJoined : RE :=
  RE.cat (optRE (RE.cat (chr ':') (RE.cat (plusRE clsNonSpace) (chr ' '))))
    (RE.cat (litRE "353 ".data)
      (RE.cat (RE.star dotRE) (RE.cat (plusRE clsNonSpace) (chr ' '))))

/-- The pattern `(:\S+ )?433 .*\S+ :Nickname is already in use\.?` of
`reNickInUse`. -/
def reNickInUse : RE :=
  RE.cat (optRE (RE.cat (chr ':') (RE.cat (plusRE clsNonSpace) (chr ' '))))
    (RE.cat (litRE "433 ".data)
      (RE.cat (RE.star dotRE)
        (RE.cat (plusRE clsNonSpace)
          (RE.cat (chr ' ')
            (RE.cat (litRE ":Nickname is already in use".data)
              (optRE (chr '.')))))))

/-- `re.ChannelJoined.MatchString l` (ircstatus.go, line 815). -/
def matchChannelJoined (l : String) : Bool := matchString reChannelJoined l

/-- `re.NickInUse.MatchString l` (ircstatus.go, line 820). -/
def matchNickInUse (l : String) : Bool := matchString reNickInUse l

/-! ## The event loop (`mymain` / `handleEvent`, ircstatus.go 613–832)

The `for` loop of `mymain` is embedded as a step function on a state
carrying the loop-local variables (`newIRC`, `newPipe`, `ircReady`,
`txbuf`, `pipe`) plus the IRC object's `RandomNumbers` field.  External
outcomes — whether `irc.Connect` succeeds, whether `makePipe` succeeds,
which `select` arm fires, whether each `irc.Privmsg` write succeeds,
whether `irc.Handshake` succeeds — are supplied by an oracle.  A loop
iteration either `continue`s with a new state (`Sum.inr`) or returns an
exit code from `mymain` (`Sum.inl`).

`irc.Privmsg`, `irc.Handshake`, `irc.PrivmsgSize` and `irc.Connect` live
in the external `minimalirc` library (not part of this repository); they
appear only as oracle outcomes, the abstract payload-size bound
`Config.max`, and the ghost flags `forceNums` / `handshakeRetried`
recording that `irc.RandomNumbers = true` was set and `irc.Handshake()`
was invoked (modelled from the spec: the handshake resends
NICK/USER/identify/JOIN). -/

/-- Go's `io.EOF` versus any other error value. -/
inductive Err where
  | eof : Err
  | other : Err
deriving DecidableEq, Repr

/-- Immutable configuration (`gc` flags after `flag.Parse`), plus the
resolved nick used for `-pipe=nick` naming and the abstract
`irc.PrivmsgSize("")` bound. -/
structure Config where
  pipeSpec : String
  nums : Bool
  channel : String
  max : Nat
  onick : String
  tmpDir : String

/-- The arm of `handleEvent`'s `select` that fires, with its data:
a line from the pipe (`ok == true`), the pipe's line channel closed with
the error read from `pipe.E`, a line from `irc.C` (`ok == true`), or
`irc.C` closed. -/
inductive Ev where
  | pipeLine (l : String) : Ev
  | pipeClosed (e : Err) : Ev
  | ircLine (l : String) : Ev
  | ircClosed : Ev
deriving DecidableEq, Repr

/-- One loop iteration's external outcomes.  `sendOk k` is the success of
the `k`-th `irc.Privmsg` write performed inside `handleEvent` this
iteration. -/
structure Oracle where
  connectOk : Bool
  pipeOk : Bool
  ev : Ev
  sendOk : Nat → Bool
  handshakeOk : Bool

/-- The loop-local state of `mymain`. -/
structure St where
  newIRC : Bool
  newPipe : Bool
  ircReady : Bool
  txbuf : Option String
  pipe : Option String
  randomNumbers : Bool
deriving DecidableEq, Repr

/-- Initial state (ircstatus.go 613–634): `newIRC := true`,
`newPipe := true`, `txbuf = nil`, `ircReady = false`, no pipe yet. -/
def initSt (cfg : Config) : St :=
  { newIRC := true, newPipe := true, ircReady := false,
    txbuf := none, pipe := none, randomNumbers := cfg.nums }

/-- Result of one `handleEvent` call: the five return values plus ghost
observation fields (`sent` logs the payload of every attempted
`irc.Privmsg`; `forceNums` / `handshakeRetried` record the 433
reaction). -/
structure HEOut where
  newPipe : Bool
  newIRC : Bool
  ircReady : Bool
  txbuf : Option String
  err : Option Err
  sent : List String
  forceNums : Bool
  handshakeRetried : Bool
deriving DecidableEq, Repr

/-- The `for _, m := range txarr` send loop (ircstatus.go 780–790): each
iteration overwrites `err` with the current write's outcome; on the first
failure it sets `newIRC` and breaks.  Returns the final `err`, whether
`newIRC` was set, and the attempted payloads. -/
def sendLoop (sendOk : Nat → Bool) : Nat → List String → Option Err →
    Option Err × Bool × List String
  | _, [], e0 => (e0, false, [])
  | k, m :: ms, _ =>
      if sendOk k then
        let r := sendLoop sendOk (k + 1) ms none
        (r.1, r.2.1, m :: r.2.2)
      else (some Err.other, true, [m])

/-- The tail of the pipe arm (ircstatus.go 770–797): store `l` in the TX
buffer, chunk it with `ArrayOfShortStrings(l, irc.PrivmsgSize(""))`, send
the chunks, and clear the buffer only if `err == nil` at the end. -/
def pipeSend (cfg : Config) (npipe : Bool) (err0 : Option Err)
    (iircReady : Bool) (l : String) (sendOk : Nat → Bool) : HEOut :=
  let txarr := (ArrayOfShortStrings l.data cfg.max).map fun cs => String.mk cs
  let r := sendLoop sendOk 0 txarr err0
  { newPipe := npipe, newIRC := r.2.1, ircReady := iircReady,
    txbuf := if r.1 = none then none else some l,
    err := r.1, sent := r.2.2, forceNums := false, handshakeRetried := false }

/-- The `irc.C` arm (ircstatus.go 798–829): on a closed channel `l` is the
zero value `""` and `newIRC` is set; then the 353 pattern may set
`ircReady` and the 433 pattern forces `irc.RandomNumbers = true` and
re-runs `irc.Handshake()`, whose failure sets `err` and `newIRC`. -/
def ircReact (closed : Bool) (l : String) (iircReady : Bool)
    (itxbuf : Option String) (handshakeOk : Bool) : HEOut :=
  let r := if matchChannelJoined l then true else iircReady
  if matchNickInUse l then
    if handshakeOk then
      { newPipe := false, newIRC := closed, ircReady := r, txbuf := itxbuf,
        err := none, sent := [], forceNums := true, handshakeRetried := true }
    else
      { newPipe := false, newIRC := true, ircReady := r, txbuf := itxbuf,
        err := some Err.other, sent := [], forceNums := true,
        handshakeRetried := true }
  else
    { newPipe := false, newIRC := closed, ircReady := r, txbuf := itxbuf,
      err := none, sent := [], forceNums := false, handshakeRetried := false }

/-- `handleEvent` (ircstatus.go 739–832). -/
def handleEvent (cfg : Config) (pipe : Option String) (iircReady : Bool)
    (itxbuf : Option String) (ev : Ev) (sendOk : Nat → Bool)
    (handshakeOk : Bool) : HEOut :=
  match ev with
  | .pipeLine l => pipeSend cfg false none iircReady l sendOk
  | .pipeClosed e =>
      if pipe = some "-" ∧ e = Err.eof then
        { newPipe := false, newIRC := false, ircReady := iircReady,
          txbuf := itxbuf, err := some Err.eof, sent := [],
          forceNums := false, handshakeRetried := false }
      else
        -- missing `break`: falls through with the zero-value line `""`
        pipeSend cfg true (some Err.other) iircReady "" sendOk
  | .ircLine l => ircReact false l iircReady itxbuf handshakeOk
  | .ircClosed => ircReact true "" iircReady itxbuf handshakeOk

/-- Pipe-name resolution of `makePipe` (makepipe.go 60–68): `"-"` stays
stdin, `"nick"` becomes a temp-directory path named after the nick, and
anything else is used as given. -/
def resolvePname (cfg : Config) : String :=
  if cfg.pipeSpec = "-" then "-"
  else if cfg.pipeSpec = "nick" then cfg.tmpDir ++ "/" ++ cfg.onick
  else cfg.pipeSpec

/-- The `if newIRC` block (ircstatus.go 639–684): `ircReady` is cleared,
a fresh IRC object is built with `RandomNumbers = *gc.nums`, and a failed
`Connect` sleeps and `continue`s (left) while success clears `newIRC`
(right). -/
def afterConnect (cfg : Config) (s : St) (connectOk : Bool) : Sum St St :=
  if s.newIRC then
    if connectOk then
      Sum.inr { s with ircReady := false, newIRC := false,
                       randomNumbers := cfg.nums }
    else
      Sum.inl { s with ircReady := false, randomNumbers := cfg.nums }
  else Sum.inr s

/-- The `if ircReady && (nil == pipe || newPipe)` block (ircstatus.go
686–712): a failed `makePipe` sleeps, sets `newPipe` and `continue`s
(left); success installs the resolved pipe (right; `newPipe` is not
cleared here — `handleEvent`'s return value overwrites it later). -/
def afterPipe (cfg : Config) (s : St) (pipeOk : Bool) : Sum St St :=
  if s.ircReady && (s.pipe.isNone || s.newPipe) then
    if pipeOk then Sum.inr { s with pipe := some (resolvePname cfg) }
    else Sum.inl { s with newPipe := true }
  else Sum.inr s

/-- Result of one iteration of `mymain`'s `for` loop: either an exit code
of `mymain` or the next state, plus the log of payloads handed to
`irc.Privmsg` during the iteration. -/
structure IterOut where
  result : Sum Int St
  sent : List String

/-- One iteration of `mymain`'s `for` loop (ircstatus.go 637–735),
including the `if nil != txbuf` retry block (714–723) and the
post-`handleEvent` error check (728–734): stdin EOF returns `0`, any
other non-nil error returns `-1`. -/
def loopIter (cfg : Config) (s : St) (o : Oracle) : IterOut :=
  match afterConnect cfg s o.connectOk with
  | .inl s1 => { result := Sum.inr s1, sent := [] }
  | .inr s1 =>
    match afterPipe cfg s1 o.pipeOk with
    | .inl s2 => { result := Sum.inr s2, sent := [] }
    | .inr s2 =>
      match s2.txbuf with
      | some b => { result := Sum.inr { s2 with newIRC := true }, sent := [b] }
      | none =>
        let r := handleEvent cfg s2.pipe s2.ircReady s2.txbuf o.ev
          o.sendOk o.handshakeOk
        match r.err with
        | some e =>
            { result := if e = Err.eof ∧ s2.pipe = some "-" then Sum.inl 0
                        else Sum.inl (-1),
              sent := r.sent }
        | none =>
            { result := Sum.inr
                { s2 with newPipe := r.newPipe, newIRC := r.newIRC,
                          ircReady := r.ircReady, txbuf := r.txbuf,
                          randomNumbers :=
                            if r.forceNums then true else s2.randomNumbers },
              sent := r.sent }

/-- The state at which `handleEvent`'s `select` runs this iteration, if
the iteration reaches it. -/
def selectState (cfg : Config) (s : St) (o : Oracle) : Option St :=
  match afterConnect cfg s o.connectOk with
  | .inl _ => none
  | .inr s1 =>
    match afterPipe cfg s1 o.pipeOk with
    | .inl _ => none
    | .inr s2 => match s2.txbuf with
      | some _ => none
      | none => some s2

/-- `handleEvent` sets the pipe arm's channel to `nil` unless
`ircReady && pipe != nil` (ircstatus.go 749–754), and a `select` never
fires on a `nil` channel: pipe events can only be delivered in states
where the gate is open. -/
def evAdmissible (s : St) (ev : Ev) : Prop :=
  match ev with
  | .pipeLine _ => s.ircReady = true ∧ s.pipe ≠ none
  | .pipeClosed _ => s.ircReady = true ∧ s.pipe ≠ none
  | .ircLine _ => True
  | .ircClosed => True

def Admissible (cfg : Config) (s : St) (o : Oracle) : Prop :=
  ∀ s2, selectState cfg s o = some s2 → evAdmissible s2 o.ev

/-- States of `mymain`'s loop reachable from the initial state through
iterations that `continue`. -/
inductive Reachable (cfg : Config) : St → Prop where
  | init : Reachable cfg (initSt cfg)
  | step {s s' : St} (o : Oracle) : Reachable cfg s → Admissible cfg s o →
      (loopIter cfg s o).result = Sum.inr s' → Reachable cfg s'

/-! ## The PING handler of the historical `reader` goroutine
(ircstatus.go, lines 277–295)

```go
if strings.HasPrefix(strings.ToLower(l), "ping ") {
        w.PrintfLine("PONG ", l[5:])
}
```

`textproto.Writer.PrintfLine(format, args...)` writes
`fmt.Sprintf(format+"\r\n", args...)`.  `goFmtNoVerb` is Go's `fmt`
semantics restricted to a format string containing no verbs (true of
`"PONG \r\n"`): the format is emitted verbatim and any surplus operands
are reported as `%!(EXTRA type=value, ...)` appended at the end.
`goToLower` models `strings.ToLower`, which agrees with per-`Char`
lowercasing on the ASCII lines at issue; likewise `String.drop 5` agrees
with the byte slice `l[5:]` because a line passing the guard starts with
five one-byte characters. -/

def goToLower (s : String) : String := String.mk (s.data.map Char.toLower)

def goFmtNoVerb (format : String) (args : List String) : String :=
  format ++
    if args.isEmpty then ""
    else "%!(EXTRA " ++ String.intercalate ", "
      (args.map fun a => "string=" ++ a) ++ ")"

def printfLine (format : String) (args : List String) : String :=
  goFmtNoVerb (format ++ "\r\n") args

/-- The per-line reaction of `reader`: the list of byte strings written to
the transport for an inbound line `l` (the loop performs no other action
on a line). -/
def readerReact (l : String) : List String :=
  if "ping ".data.isPrefixOf (goToLower l).data then
    [printfLine "PONG " [String.mk (l.data.drop 5)]]
  else []

/-! ## `createPipe` (makepipe.go, lines 132–156)

```go
func createPipe(pname string) error {
MakePipe:
        fi, err := os.Stat(pname)
        switch {
        case nil != err && os.IsNotExist(err):
                if err := syscall.Mkfifo(pname, 0644); err != nil { return ... }
                goto MakePipe
        case nil != err: return ...
        case 0 == fi.Mode()&os.ModeNamedPipe: return ...
        default:
        }
        return nil
}
```

The file system is abstracted to an association list from paths to
entries; `stat` is total on it (so the `stat`-error branch does not
arise) and `Mkfifo` always succeeds (its failure branch only produces an
error return, which no claim is about).  After a successful `Mkfifo` the
`goto` re-runs the `switch`, which in this deterministic model finds the
just-created FIFO; one unfolding of the `goto` is therefore modelled, and
its not-found branch is dead. -/

inductive Entry where
  | fifo (mode : Nat) : Entry
  | other : Entry
deriving DecidableEq, Repr

abbrev FS := List (String × Entry)

def statE (fs : FS) (p : String) : Option Entry :=
  (fs.find? fun e => e.1 == p).map (·.2)

def mkfifoFS (fs : FS) (p : String) (mode : Nat) : FS :=
  (p, Entry.fifo mode) :: fs

def createPipe (fs : FS) (p : String) : Except String FS :=
  match statE fs p with
  | none =>
      let fs1 := mkfifoFS fs p 0o644
      match statE fs1 p with
      | none => Except.error "unable to make pipe"
      | some (Entry.fifo _) => Except.ok fs1
      | some Entry.other => Except.error "exists but is not a pipe"
  | some (Entry.fifo _) => Except.ok fs
  | some Entry.other => Except.error "exists but is not a pipe"

/-- Unix permission bits of a mode word. -/
def permOwnerRead (m : Nat) : Bool := m.testBit 8

def permOwnerWrite (m : Nat) : Bool := m.testBit 7

def permGroupRead (m : Nat) : Bool := m.testBit 5

def permGroupWrite (m : Nat) : Bool := m.testBit 4

/-! ## Concrete fixtures used by the claim theorems -/

/-- A configuration reading from stdin (`-pipe=-`, all other values are
the flag defaults; `max` stands for `irc.PrivmsgSize("")`). -/
def cfgStdin : Config :=
  { pipeSpec := "-", nums := true, channel := "##ircstatushub", max := 400,
    onick := "host-1", tmpDir := "/tmp" }

/-- A configuration reading from the named pipe `/tmp/ircstatus`. -/
def cfgPath : Config :=
  { pipeSpec := "/tmp/ircstatus", nums := true, channel := "##ircstatushub",
    max := 400, onick := "host-1", tmpDir := "/tmp" }

/-- A member-list numeric reply. -/
def line353 : String := "353 x y "

/-- A member-list numeric reply naming the channel `#other`, not the
configured channel. -/
def line353Other : String := ":s 353 n = #other :a b"

/-- A nickname-in-use numeric reply. -/
def line433 : String := ":s 433 n :Nickname is already in use."

/-- Ready state on stdin: connected, 353 seen, pipe opened. -/
def sReadyStdin : St :=
  { newIRC := false, newPipe := false, ircReady := true, txbuf := none,
    pipe := some "-", randomNumbers := true }

/-- State after connecting and seeing a 353, before any `makePipe`
attempt (the same state value arises under `cfgStdin` and `cfgPath`). -/
def sJoined : St :=
  { newIRC := false, newPipe := false, ircReady := true, txbuf := none,
    pipe := none, randomNumbers := true }

/-- Ready state on the named pipe: connected, 353 seen, pipe opened. -/
def sReadyPath : St :=
  { newIRC := false, newPipe := false, ircReady := true, txbuf := none,
    pipe := some "/tmp/ircstatus", randomNumbers := true }

def oConnect353 : Oracle :=
  { connectOk := true, pipeOk := true, ev := Ev.ircLine line353,
    sendOk := fun _ => true, handshakeOk := true }

def oIrcNoop : Oracle :=
  { connectOk := true, pipeOk := true, ev := Ev.ircLine "x",
    sendOk := fun _ => true, handshakeOk := true }

def oSendFail : Oracle :=
  { connectOk := true, pipeOk := true, ev := Ev.pipeLine "hello world",
    sendOk := fun _ => false, handshakeOk := true }

def oStdinEOF : Oracle :=
  { connectOk := true, pipeOk := true, ev := Ev.pipeClosed Err.eof,
    sendOk := fun _ => true, handshakeOk := true }

def oPipeErrSendFail : Oracle :=
  { connectOk := true, pipeOk := true, ev := Ev.pipeClosed Err.other,
    sendOk := fun _ => false, handshakeOk := true }

def oPipeErrSendOk : Oracle :=
  { connectOk := true, pipeOk := true, ev := Ev.pipeClosed Err.other,
    sendOk := fun _ => true, handshakeOk := true }

def o433Ok : Oracle :=
  { connectOk := true, pipeOk := true, ev := Ev.ircLine line433,
    sendOk := fun _ => true, handshakeOk := true }

def o433Fail : Oracle :=
  { connectOk := true, pipeOk := true, ev := Ev.ircLine line433,
    sendOk := fun _ => true, handshakeOk := false }

def oPipeFail : Oracle :=
  { connectOk := true, pipeOk := false, ev := Ev.ircLine "x",
    sendOk := fun _ => true, handshakeOk := true }

/-! # Theorems -/

/-! ## Byte lengths and the chunker -/

theorem runeLen_pos (c : Char) : 1 ≤ runeLen c := Char.utf8Size_pos c

@[simp] theorem strLen_nil : strLen [] = 0 := rfl

@[simp] theorem strLen_cons (c : Char) (cs : List Char) :
    strLen (c :: cs) = runeLen c + strLen cs := by
  simp [strLen]

@[simp] theorem strLen_append (a b : List Char) :
    strLen (a ++ b) = strLen a + strLen b := by
  simp [strLen]

theorem runeLen_le_strLen {c : Char} {s : List Char} (h : c ∈ s) :
    runeLen c ≤ strLen s := by
  have := List.single_le_sum (l := s.map runeLen) (fun x _ => Nat.zero_le x)
    (runeLen c) (List.mem_map_of_mem runeLen h)
  simpa [strLen] using this

theorem replaceBig_le {l : Nat} (hl : 1 ≤ l) (c : Char) :
    runeLen (replaceBig l c) ≤ l := by
  unfold replaceBig
  split
  · simpa [runeLen] using hl
  · omega

theorem aossLoop_eq_noRepLoop (l : Nat) :
    ∀ (cs : List Char) (w : List Char),
      aossLoop l w cs = noRepLoop l w (cs.map (replaceBig l)) := by
  intro cs
  induction cs with
  | nil => intro w; simp [aossLoop, noRepLoop]
  | cons c cs ih =>
    intro w
    by_cases h : strLen (w ++ [replaceBig l c]) > l
    · simp [aossLoop, noRepLoop, h, ih]
    · simp [aossLoop, noRepLoop, h, ih]

theorem noRepLoop_flatten (l : Nat) :
    ∀ (cs : List Char) (w : List Char),
      (noRepLoop l w cs).flatten = w ++ cs := by
  intro cs
  induction cs with
  | nil => intro w; simp [noRepLoop]
  | cons c cs ih =>
    intro w
    by_cases h : l < strLen w + runeLen c
    · simp [noRepLoop, h, ih]
    · simp [noRepLoop, h, ih]

theorem noRepLoop_fit (l : Nat) :
    ∀ (cs : List Char) (w : List Char), (∀ c ∈ cs, runeLen c ≤ l) →
      strLen w ≤ l → ∀ ch ∈ noRepLoop l w cs, strLen ch ≤ l := by
  intro cs
  induction cs with
  | nil =>
    intro w _ hw ch hch
    simp [noRepLoop] at hch
    simpa [hch] using hw
  | cons c cs ih =>
    intro w hc hw ch hch
    have hchead : runeLen c ≤ l := hc c (by simp)
    have hctail : ∀ x ∈ cs, runeLen x ≤ l := fun x hx => hc x (by simp [hx])
    by_cases h : l < strLen w + runeLen c
    · simp [noRepLoop, h] at hch
      rcases hch with rfl | hch
      · exact hw
      · exact ih [c] hctail (by simpa using hchead) ch hch
    · simp [noRepLoop, h] at hch
      exact ih (w ++ [c]) hctail (by simp; omega) ch hch

theorem replaceBig_map_id {l : Nat} {s : List Char}
    (h : ∀ c ∈ s, runeLen c ≤ l) : s.map (replaceBig l) = s := by
  induction s with
  | nil => rfl
  | cons c cs ih =>
    have h1 : runeLen c ≤ l := h c (by simp)
    have h2 : ∀ x ∈ cs, runeLen x ≤ l := fun x hx => h x (by simp [hx])
    have hc : replaceBig l c = c := by
      unfold replaceBig
      split
      · next hgt => exact absurd h1 (by omega)
      · rfl
    simp [hc, ih h2]

/-! ### Minimality of the greedy chunking

`noRepCountPair` is the heart of the minimality argument (claim C2): for
two accumulator fills `v ≤ u` (both fitting the budget), the greedy loop
starting from the smaller fill produces no more chunks, and the loop
starting from the larger fill produces at most one more chunk than the
one starting from the smaller. -/

theorem noRepCountPair (l : Nat) :
    ∀ (cs : List Char) (u v : List Char), strLen v ≤ strLen u → strLen u ≤ l →
      (noRepLoop l v cs).length ≤ (noRepLoop l u cs).length ∧
      (noRepLoop l u cs).length ≤ (noRepLoop l v cs).length + 1 := by
  intro cs
  induction cs with
  | nil => intro u v _ _; simp [noRepLoop]
  | cons c cs ih =>
    intro u v hvu hul
    by_cases hu : l < strLen u + runeLen c
    · by_cases hv : l < strLen v + runeLen c
      · -- both accumulators flush: identical continuations
        simp [noRepLoop, hu, hv]
      · -- `u` flushes, `v` does not
        have h1 : strLen (v ++ [c]) ≤ l := by simp; omega
        have h2 : strLen [c] ≤ strLen (v ++ [c]) := by simp
        obtain ⟨m1, g1⟩ := ih (v ++ [c]) [c] h2 h1
        constructor
        · simp [noRepLoop, hu, hv]; omega
        · simp [noRepLoop, hu, hv]; omega
    · -- `u` (hence also `v`) does not flush
      have hv : ¬ l < strLen v + runeLen c := by omega
      have h1 : strLen (u ++ [c]) ≤ l := by simp; omega
      have h2 : strLen (v ++ [c]) ≤ strLen (u ++ [c]) := by simp; omega
      obtain ⟨m1, g1⟩ := ih (u ++ [c]) (v ++ [c]) h2 h1
      constructor
      · simp [noRepLoop, hu, hv]; omega
      · simp [noRepLoop, hu, hv]; omega

/-- Processing a fitting block `p` from accumulator `w` never flushes. -/
theorem noRepLoop_absorb (l : Nat) :
    ∀ (p : List Char) (w rest : List Char), strLen (w ++ p) ≤ l →
      noRepLoop l w (p ++ rest) = noRepLoop l (w ++ p) rest := by
  intro p
  induction p with
  | nil => intro w rest _; simp
  | cons c p ih =>
    intro w rest h
    have h1 : strLen w + (runeLen c + strLen p) ≤ l := by simpa using h
    have hnf : ¬ l < strLen w + runeLen c := by omega
    have h2 : strLen ((w ++ [c]) ++ p) ≤ l := by simp; omega
    have step : noRepLoop l w ((c :: p) ++ rest)
        = noRepLoop l (w ++ [c]) (p ++ rest) := by
      simp [noRepLoop, hnf]
    rw [step, ih (w ++ [c]) rest h2]
    simp

theorem noRepLoop_single (l : Nat) (p : List Char) (h : strLen p ≤ l) :
    noRepLoop l [] p = [p] := by
  have := noRepLoop_absorb l p [] [] (by simpa using h)
  simpa [noRepLoop] using this

/-- Any chunking of `cs` into blocks that each fit the budget has at least
as many blocks as the greedy loop produces. -/
theorem noRepMin (l : Nat) :
    ∀ (parts : List (List Char)) (cs : List Char), parts ≠ [] →
      parts.flatten = cs → (∀ p ∈ parts, strLen p ≤ l) →
      (noRepLoop l [] cs).length ≤ parts.length := by
  intro parts
  induction parts with
  | nil => intro cs h; exact absurd rfl h
  | cons p parts ih =>
    intro cs _ hflat hfit
    have hp : strLen p ≤ l := hfit p (by simp)
    rcases parts with _ | ⟨q, parts⟩
    · simp at hflat
      subst hflat
      simp [noRepLoop_single l p hp]
    · have hrest : (q :: parts).flatten = (q :: parts).flatten := rfl
      have hfit2 : ∀ x ∈ q :: parts, strLen x ≤ l := by
        intro x hx; exact hfit x (by simp [hx])
      have hih := ih ((q :: parts).flatten) (by simp) rfl hfit2
      have habs : noRepLoop l [] (p ++ (q :: parts).flatten)
          = noRepLoop l p ((q :: parts).flatten) := by
        simpa using noRepLoop_absorb l p [] ((q :: parts).flatten)
          (by simpa using hp)
      have hpair := (noRepCountPair l ((q :: parts).flatten) p []
        (by simp) hp).2
      have hcs : cs = p ++ (q :: parts).flatten := by
        simpa using hflat.symm
      subst hcs
      rw [habs]
      calc (noRepLoop l p ((q :: parts).flatten)).length
          ≤ (noRepLoop l [] ((q :: parts).flatten)).length + 1 := hpair
        _ ≤ (q :: parts).length + 1 := by omega
        _ = (p :: q :: parts).length := by simp

/-! ### Claims C1 and C2 -/

/-- C1: for every valid UTF-8 string `s` (a `List Char` of runes) and every
budget `max ≥ 1`, `ArrayOfShortStrings s max` returns chunks each of byte
length at most `max`, splits only at whole-rune boundaries (each chunk is a
rune list and the chunks concatenate, rune by rune, to the input), and the
concatenation of all chunks equals `s` with every rune whose UTF-8 encoding
exceeds `max` bytes replaced by `'?'` — hence equals `s` exactly when no
rune of `s` exceeds `max`. -/
theorem C1_chunks_fit_and_concat (s : List Char) (l : Nat) (hl : 1 ≤ l) :
    (∀ ch ∈ ArrayOfShortStrings s l, strLen ch ≤ l) ∧
    (ArrayOfShortStrings s l).flatten = s.map (replaceBig l) ∧
    ((∀ c ∈ s, runeLen c ≤ l) → (ArrayOfShortStrings s l).flatten = s) := by
  have hflat : (ArrayOfShortStrings s l).flatten = s.map (replaceBig l) := by
    by_cases h : strLen s ≤ l
    · have hid : s.map (replaceBig l) = s :=
        replaceBig_map_id fun c hc => le_trans (runeLen_le_strLen hc) h
      simp [ArrayOfShortStrings, h, hid]
    · simp [ArrayOfShortStrings, h, aossLoop_eq_noRepLoop, noRepLoop_flatten]
  have hfit : ∀ ch ∈ ArrayOfShortStrings s l, strLen ch ≤ l := by
    by_cases h : strLen s ≤ l
    · intro ch hch
      simp [ArrayOfShortStrings, h] at hch
      simpa [hch] using h
    · intro ch hch
      simp only [ArrayOfShortStrings, if_neg h, aossLoop_eq_noRepLoop] at hch
      refine noRepLoop_fit l (s.map (replaceBig l)) [] ?_ (by simp) ch hch
      intro c hc
      rcases List.mem_map.1 hc with ⟨d, _, rfl⟩
      exact replaceBig_le hl d
  exact ⟨hfit, hflat, fun hall => by rw [hflat, replaceBig_map_id hall]⟩

theorem C1_chunks_fit_and_concat_witness :
    (1 : Nat) ≤ 3 ∧
    ((∀ ch ∈ ArrayOfShortStrings "héllo".data 3, strLen ch ≤ 3) ∧
     (ArrayOfShortStrings "héllo".data 3).flatten
        = "héllo".data.map (replaceBig 3) ∧
     ((∀ c ∈ "héllo".data, runeLen c ≤ 3) →
        (ArrayOfShortStrings "héllo".data 3).flatten = "héllo".data)) :=
  ⟨by decide, C1_chunks_fit_and_concat "héllo".data 3 (by decide)⟩

/-- C2: for every valid UTF-8 string `s` and budget `max ≥ 1`, the number of
chunks `ArrayOfShortStrings s max` returns is minimal over all whole-rune
splits (nonempty lists of rune-list chunks whose concatenation is `s` after
the oversize-rune replacement) into chunks of at most `max` bytes; and a
string of byte length at most `max` is returned as the single chunk `[s]`,
so such a line is sent as exactly one PRIVMSG. -/
theorem C2_chunk_count_minimal (s : List Char) (l : Nat) (hl : 1 ≤ l)
    (parts : List (List Char)) (hne : parts ≠ [])
    (hflat : parts.flatten = s.map (replaceBig l))
    (hfit : ∀ p ∈ parts, strLen p ≤ l) :
    (ArrayOfShortStrings s l).length ≤ parts.length ∧
    (strLen s ≤ l → ArrayOfShortStrings s l = [s]) := by
  constructor
  · by_cases h : strLen s ≤ l
    · simpa [ArrayOfShortStrings, h] using List.length_pos.2 hne
    · simp only [ArrayOfShortStrings, if_neg h, aossLoop_eq_noRepLoop]
      exact noRepMin l parts _ hne hflat hfit
  · intro h
    simp [ArrayOfShortStrings, h]

theorem C2_chunk_count_minimal_witness :
    (1 : Nat) ≤ 2 ∧
    ((ArrayOfShortStrings "abcd".data 2).length
        ≤ [['a'], ['b'], ['c'], ['d']].length ∧
     (strLen "abcd".data ≤ 2 → ArrayOfShortStrings "abcd".data 2 = ["abcd".data])) :=
  ⟨by decide, C2_chunk_count_minimal "abcd".data 2 (by decide)
    [['a'], ['b'], ['c'], ['d']] (by decide) (by decide) (by decide)⟩

/-! ## Shape lemmas for the loop phases -/

theorem afterConnect_spec (cfg : Config) (s : St) (b : Bool) :
    (s.newIRC = true ∧ b = false ∧ afterConnect cfg s b
        = Sum.inl { s with ircReady := false, randomNumbers := cfg.nums }) ∨
    (s.newIRC = true ∧ b = true ∧ afterConnect cfg s b
        = Sum.inr { s with ircReady := false, newIRC := false,
                           randomNumbers := cfg.nums }) ∨
    (s.newIRC = false ∧ afterConnect cfg s b = Sum.inr s) := by
  unfold afterConnect
  cases hn : s.newIRC <;> cases b <;> simp [hn]

theorem afterPipe_spec (cfg : Config) (s : St) (b : Bool) :
    ((s.ircReady && (s.pipe.isNone || s.newPipe)) = true ∧ b = false ∧
       afterPipe cfg s b = Sum.inl { s with newPipe := true }) ∨
    ((s.ircReady && (s.pipe.isNone || s.newPipe)) = true ∧ b = true ∧
       afterPipe cfg s b = Sum.inr { s with pipe := some (resolvePname cfg) }) ∨
    ((s.ircReady && (s.pipe.isNone || s.newPipe)) = false ∧
       afterPipe cfg s b = Sum.inr s) := by
  unfold afterPipe
  cases hc : (s.ircReady && (s.pipe.isNone || s.newPipe)) <;> cases b <;>
    simp [hc]

/-! ## Shape lemmas for `handleEvent` -/

theorem handleEvent_txbuf_none {cfg : Config} {pipe : Option String}
    {ir : Bool} {ev : Ev} {sk : Nat → Bool} {hk : Bool}
    (h : (handleEvent cfg pipe ir none ev sk hk).err = none) :
    (handleEvent cfg pipe ir none ev sk hk).txbuf = none := by
  cases ev with
  | pipeLine l =>
    simp only [handleEvent, pipeSend] at h ⊢
    simp [h]
  | pipeClosed e =>
    by_cases hc : pipe = some "-" ∧ e = Err.eof
    · simp [handleEvent, hc] at h
    · simp only [handleEvent, if_neg hc, pipeSend] at h ⊢
      simp [h]
  | ircLine l =>
    simp only [handleEvent, ircReact]
    split <;> split <;> rfl
  | ircClosed =>
    simp only [handleEvent, ircReact]
    split <;> split <;> rfl

theorem handleEvent_ready_of_false {cfg : Config} {pipe : Option String}
    {tb : Option String} {ev : Ev} {sk : Nat → Bool} {hk : Bool}
    (h : (handleEvent cfg pipe false tb ev sk hk).ircReady = true) :
    ∃ l, ev = Ev.ircLine l ∧ matchChannelJoined l = true := by
  cases ev with
  | pipeLine l => simp [handleEvent, pipeSend] at h
  | pipeClosed e =>
    by_cases hc : pipe = some "-" ∧ e = Err.eof <;>
      simp [handleEvent, hc, pipeSend] at h
  | ircLine l =>
    refine ⟨l, rfl, ?_⟩
    by_cases hm : matchChannelJoined l = true
    · exact hm
    · exfalso
      simp only [Bool.not_eq_true] at hm
      simp [handleEvent, ircReact, hm, apply_ite] at h
  | ircClosed =>
    exfalso
    have hm : matchChannelJoined "" = false := by decide
    simp [handleEvent, ircReact, hm, apply_ite] at h

theorem handleEvent_sent_pipe {cfg : Config} {pipe : Option String}
    {ir : Bool} {tb : Option String} {ev : Ev} {sk : Nat → Bool} {hk : Bool}
    (h : (handleEvent cfg pipe ir tb ev sk hk).sent ≠ []) :
    (∃ l, ev = Ev.pipeLine l) ∨ (∃ e, ev = Ev.pipeClosed e) := by
  cases ev with
  | pipeLine l => exact Or.inl ⟨l, rfl⟩
  | pipeClosed e => exact Or.inr ⟨e, rfl⟩
  | ircLine l =>
    exfalso
    apply h
    simp only [handleEvent, ircReact]
    split <;> split <;> rfl
  | ircClosed =>
    exfalso
    apply h
    simp only [handleEvent, ircReact]
    split <;> split <;> rfl

/-- Neither loop phase touches the TX buffer. -/
theorem afterConnect_txbuf (cfg : Config) (s : St) (b : Bool) (t : St)
    (h : afterConnect cfg s b = Sum.inl t ∨ afterConnect cfg s b = Sum.inr t) :
    t.txbuf = s.txbuf := by
  rcases afterConnect_spec cfg s b with ⟨_, _, hc⟩ | ⟨_, _, hc⟩ | ⟨_, hc⟩ <;>
    rcases h with h | h <;> rw [hc] at h <;> simp at h <;> simp [← h]

theorem afterPipe_txbuf (cfg : Config) (s : St) (b : Bool) (t : St)
    (h : afterPipe cfg s b = Sum.inl t ∨ afterPipe cfg s b = Sum.inr t) :
    t.txbuf = s.txbuf := by
  rcases afterPipe_spec cfg s b with ⟨_, _, hc⟩ | ⟨_, _, hc⟩ | ⟨_, hc⟩ <;>
    rcases h with h | h <;> rw [hc] at h <;> simp at h <;> simp [← h]

/-- The connect phase leaves `ircReady` false when it was false. -/
theorem afterConnect_ready_false (cfg : Config) (s : St) (b : Bool) (t : St)
    (hs : s.ircReady = false)
    (h : afterConnect cfg s b = Sum.inl t ∨ afterConnect cfg s b = Sum.inr t) :
    t.ircReady = false := by
  rcases afterConnect_spec cfg s b with ⟨_, _, hc⟩ | ⟨_, _, hc⟩ | ⟨_, hc⟩ <;>
    rcases h with h | h <;> rw [hc] at h <;> simp at h <;> simp [← h, hs]

/-- When a new connection is to be created, the connect phase clears
`ircReady` no matter how the connection attempt turns out. -/
theorem afterConnect_ready_newIRC (cfg : Config) (s : St) (b : Bool) (t : St)
    (hn : s.newIRC = true)
    (h : afterConnect cfg s b = Sum.inl t ∨ afterConnect cfg s b = Sum.inr t) :
    t.ircReady = false := by
  rcases afterConnect_spec cfg s b with ⟨_, _, hc⟩ | ⟨_, _, hc⟩ | ⟨hn2, hc⟩
  · rcases h with h | h <;> rw [hc] at h <;> simp at h <;> simp [← h]
  · rcases h with h | h <;> rw [hc] at h <;> simp at h <;> simp [← h]
  · rw [hn] at hn2; cases hn2

/-- The pipe phase never changes `ircReady`. -/
theorem afterPipe_ready (cfg : Config) (s : St) (b : Bool) (t : St)
    (h : afterPipe cfg s b = Sum.inl t ∨ afterPipe cfg s b = Sum.inr t) :
    t.ircReady = s.ircReady := by
  rcases afterPipe_spec cfg s b with ⟨_, _, hc⟩ | ⟨_, _, hc⟩ | ⟨_, hc⟩ <;>
    rcases h with h | h <;> rw [hc] at h <;> simp at h <;> simp [← h]

/-- Full decomposition of one loop iteration into its four control paths:
connect failed; `makePipe` failed; the (dead) `txbuf` retry block fired;
or the `select` in `handleEvent` ran. -/
theorem loopIter_spec (cfg : Config) (s : St) (o : Oracle) :
    (∃ s1, afterConnect cfg s o.connectOk = Sum.inl s1 ∧
       loopIter cfg s o = { result := Sum.inr s1, sent := [] }) ∨
    (∃ s1 s2, afterConnect cfg s o.connectOk = Sum.inr s1 ∧
       afterPipe cfg s1 o.pipeOk = Sum.inl s2 ∧
       loopIter cfg s o = { result := Sum.inr s2, sent := [] }) ∨
    (∃ s1 s2 b, afterConnect cfg s o.connectOk = Sum.inr s1 ∧
       afterPipe cfg s1 o.pipeOk = Sum.inr s2 ∧ s2.txbuf = some b ∧
       loopIter cfg s o
         = { result := Sum.inr { s2 with newIRC := true }, sent := [b] }) ∨
    (∃ s1 s2, afterConnect cfg s o.connectOk = Sum.inr s1 ∧
       afterPipe cfg s1 o.pipeOk = Sum.inr s2 ∧ s2.txbuf = none ∧
       selectState cfg s o = some s2 ∧
       loopIter cfg s o =
         match (handleEvent cfg s2.pipe s2.ircReady none o.ev o.sendOk
             o.handshakeOk).err with
         | some e =>
             { result := if e = Err.eof ∧ s2.pipe = some "-" then Sum.inl 0
                         else Sum.inl (-1),
               sent := (handleEvent cfg s2.pipe s2.ircReady none o.ev o.sendOk
                 o.handshakeOk).sent }
         | none =>
             { result := Sum.inr
                 { s2 with
                   newPipe := (handleEvent cfg s2.pipe s2.ircReady none o.ev
                     o.sendOk o.handshakeOk).newPipe,
                   newIRC := (handleEvent cfg s2.pipe s2.ircReady none o.ev
                     o.sendOk o.handshakeOk).newIRC,
                   ircReady := (handleEvent cfg s2.pipe s2.ircReady none o.ev
                     o.sendOk o.handshakeOk).ircReady,
                   txbuf := (handleEvent cfg s2.pipe s2.ircReady none o.ev
                     o.sendOk o.handshakeOk).txbuf,
                   randomNumbers :=
                     if (handleEvent cfg s2.pipe s2.ircReady none o.ev
                         o.sendOk o.handshakeOk).forceNums then true
                     else s2.randomNumbers },
               sent := (handleEvent cfg s2.pipe s2.ircReady none o.ev o.sendOk
                 o.handshakeOk).sent }) := by
  cases hc : afterConnect cfg s o.connectOk with
  | inl s1 =>
    refine Or.inl ⟨s1, rfl, ?_⟩
    simp only [loopIter, hc]
  | inr s1 =>
    cases hp : afterPipe cfg s1 o.pipeOk with
    | inl s2 =>
      refine Or.inr (Or.inl ⟨s1, s2, rfl, hp, ?_⟩)
      simp only [loopIter, hc, hp]
    | inr s2 =>
      cases ht : s2.txbuf with
      | some b =>
        refine Or.inr (Or.inr (Or.inl ⟨s1, s2, b, rfl, hp, ht, ?_⟩))
        simp only [loopIter, hc, hp, ht]
      | none =>
        refine Or.inr (Or.inr (Or.inr ⟨s1, s2, rfl, hp, ht, ?_, ?_⟩))
        · simp only [selectState, hc, hp, ht]
        · simp only [loopIter, hc, hp, ht]

/-! ## The pending-buffer invariant -/

/-- In every reachable state of the loop, the TX buffer is empty: the only
`handleEvent` paths returning a non-nil `txbuf` also return a non-nil
`err`, on which `mymain` exits instead of looping.  (In particular the
`if nil != txbuf` retry block of `mymain` is dead code.) -/
theorem reachable_txbuf_none {cfg : Config} {s : St}
    (h : Reachable cfg s) : s.txbuf = none := by
  induction h with
  | init => rfl
  | @step s s' o _ _ hres ih =>
    rcases loopIter_spec cfg s o with
      ⟨s1, hc, heq⟩ | ⟨s1, s2, hc, hp, heq⟩ | ⟨s1, s2, b, hc, hp, ht, heq⟩ |
      ⟨s1, s2, hc, hp, ht, _, heq⟩
    · rw [heq] at hres
      simp at hres
      rw [← hres, afterConnect_txbuf cfg s o.connectOk s1 (Or.inl hc)]
      exact ih
    · rw [heq] at hres
      simp at hres
      rw [← hres, afterPipe_txbuf cfg s1 o.pipeOk s2 (Or.inl hp),
        afterConnect_txbuf cfg s o.connectOk s1 (Or.inr hc)]
      exact ih
    · exfalso
      rw [afterPipe_txbuf cfg s1 o.pipeOk s2 (Or.inr hp),
        afterConnect_txbuf cfg s o.connectOk s1 (Or.inr hc), ih] at ht
      cases ht
    · rw [heq] at hres
      cases he : (handleEvent cfg s2.pipe s2.ircReady none o.ev o.sendOk
          o.handshakeOk).err with
      | some e =>
        rw [he] at hres
        simp at hres
        split at hres <;> cases hres
      | none =>
        rw [he] at hres
        simp at hres
        rw [← hres]
        exact handleEvent_txbuf_none he

/-! ## Reachability of the concrete fixtures -/

theorem reach_sJoined_stdin : Reachable cfgStdin sJoined := by
  apply Reachable.step oConnect353 Reachable.init
  · intro s2 _; trivial
  · decide

theorem reach_sReadyStdin : Reachable cfgStdin sReadyStdin := by
  apply Reachable.step oIrcNoop reach_sJoined_stdin
  · intro s2 _; trivial
  · decide

theorem reach_sJoined_path : Reachable cfgPath sJoined := by
  apply Reachable.step oConnect353 Reachable.init
  · intro s2 _; trivial
  · decide

theorem reach_sReadyPath : Reachable cfgPath sReadyPath := by
  apply Reachable.step oIrcNoop reach_sJoined_path
  · intro s2 _; trivial
  · decide

/-! ## Claim C4 -/

/-- C4: in every reachable state of the event loop, (a) input-source lines
are transmitted only in iterations whose `select` runs with
`ircReady = true` (pipe events fire only through the non-`nil` channel
gate, and the `txbuf` block never fires because the buffer is empty in
every reachable state); (b) `ircReady` goes from false to true only when
an inbound line matching the 353 member-list pattern is received; and
(c) whenever a new connection is to be created, `ircReady` is reset to
false before anything else happens in the iteration. -/
theorem C4_no_send_before_ready (cfg : Config) (s : St)
    (hs : Reachable cfg s) (o : Oracle) (hadm : Admissible cfg s o) :
    ((loopIter cfg s o).sent ≠ [] →
       ∃ s2, selectState cfg s o = some s2 ∧ s2.ircReady = true) ∧
    (∀ s', (loopIter cfg s o).result = Sum.inr s' → s.ircReady = false →
       s'.ircReady = true →
       ∃ l, o.ev = Ev.ircLine l ∧ matchChannelJoined l = true) ∧
    (s.newIRC = true → ∀ t,
       (afterConnect cfg s o.connectOk = Sum.inl t ∨
        afterConnect cfg s o.connectOk = Sum.inr t) → t.ircReady = false) := by
  have htx : s.txbuf = none := reachable_txbuf_none hs
  refine ⟨?_, ?_, ?_⟩
  · intro hsent
    rcases loopIter_spec cfg s o with
      ⟨s1, hc, heq⟩ | ⟨s1, s2, hc, hp, heq⟩ | ⟨s1, s2, b, hc, hp, ht, heq⟩ |
      ⟨s1, s2, hc, hp, ht, hsel, heq⟩
    · rw [heq] at hsent; simp at hsent
    · rw [heq] at hsent; simp at hsent
    · exfalso
      rw [afterPipe_txbuf cfg s1 o.pipeOk s2 (Or.inr hp),
        afterConnect_txbuf cfg s o.connectOk s1 (Or.inr hc), htx] at ht
      cases ht
    · refine ⟨s2, hsel, ?_⟩
      rw [heq] at hsent
      have hsent2 : (handleEvent cfg s2.pipe s2.ircReady none o.ev o.sendOk
          o.handshakeOk).sent ≠ [] := by
        cases he : (handleEvent cfg s2.pipe s2.ircReady none o.ev o.sendOk
            o.handshakeOk).err with
        | some e => rw [he] at hsent; simpa using hsent
        | none => rw [he] at hsent; simpa using hsent
      have hadm2 := hadm s2 hsel
      rcases handleEvent_sent_pipe hsent2 with ⟨l, hevl⟩ | ⟨e, hevl⟩ <;>
        rw [hevl] at hadm2 <;> exact hadm2.1
  · intro s' hres hr0 hr1
    rcases loopIter_spec cfg s o with
      ⟨s1, hc, heq⟩ | ⟨s1, s2, hc, hp, heq⟩ | ⟨s1, s2, b, hc, hp, ht, heq⟩ |
      ⟨s1, s2, hc, hp, ht, hsel, heq⟩
    · exfalso
      rw [heq] at hres
      simp at hres
      rw [← hres,
        afterConnect_ready_false cfg s o.connectOk s1 hr0 (Or.inl hc)] at hr1
      cases hr1
    · exfalso
      rw [heq] at hres
      simp at hres
      rw [← hres, afterPipe_ready cfg s1 o.pipeOk s2 (Or.inl hp),
        afterConnect_ready_false cfg s o.connectOk s1 hr0 (Or.inr hc)] at hr1
      cases hr1
    · exfalso
      rw [afterPipe_txbuf cfg s1 o.pipeOk s2 (Or.inr hp),
        afterConnect_txbuf cfg s o.connectOk s1 (Or.inr hc), htx] at ht
      cases ht
    · have h2ready : s2.ircReady = false := by
        rw [afterPipe_ready cfg s1 o.pipeOk s2 (Or.inr hp)]
        exact afterConnect_ready_false cfg s o.connectOk s1 hr0 (Or.inr hc)
      rw [heq] at hres
      cases he : (handleEvent cfg s2.pipe s2.ircReady none o.ev o.sendOk
          o.handshakeOk).err with
      | some e =>
        rw [he] at hres
        simp at hres
        split at hres <;> cases hres
      | none =>
        rw [he] at hres
        simp at hres
        rw [← hres] at hr1
        simp at hr1
        rw [h2ready] at hr1
        exact handleEvent_ready_of_false hr1
  · intro hn t h
    exact afterConnect_ready_newIRC cfg s o.connectOk t hn h

theorem C4_no_send_before_ready_witness :
    Reachable cfgStdin (initSt cfgStdin) ∧
    Admissible cfgStdin (initSt cfgStdin) oIrcNoop ∧
    (((loopIter cfgStdin (initSt cfgStdin) oIrcNoop).sent ≠ [] →
        ∃ s2, selectState cfgStdin (initSt cfgStdin) oIrcNoop = some s2 ∧
          s2.ircReady = true) ∧
     (∀ s', (loopIter cfgStdin (initSt cfgStdin) oIrcNoop).result
          = Sum.inr s' →
        (initSt cfgStdin).ircReady = false → s'.ircReady = true →
        ∃ l, oIrcNoop.ev = Ev.ircLine l ∧ matchChannelJoined l = true) ∧
     ((initSt cfgStdin).newIRC = true → ∀ t,
        (afterConnect cfgStdin (initSt cfgStdin) oIrcNoop.connectOk
            = Sum.inl t ∨
         afterConnect cfgStdin (initSt cfgStdin) oIrcNoop.connectOk
            = Sum.inr t) → t.ircReady = false)) :=
  ⟨Reachable.init, fun _ _ => trivial,
    C4_no_send_before_ready cfgStdin (initSt cfgStdin) Reachable.init
      oIrcNoop (fun _ _ => trivial)⟩

/-! ## Claim C3 (code bug)

When a chunk write fails, `handleEvent` keeps the whole original line in
`txbuf` and requests a reconnect via `newIRC = true` — but it also
returns a non-nil `err`, on which `mymain`'s `else if err != nil` check
(ircstatus.go 731–734) returns `-1`, so the process exits instead of
retrying the line on the next connection generation.  The `txbuf` retry
block of `mymain` (714–723) is unreachable (`reachable_txbuf_none`). -/

/-- C3: at the reachable ready state, a line `"hello world"` whose
transport write fails leaves the whole original line in the returned
`txbuf` with `newIRC` set — and then the loop iteration returns exit code
`-1` (process exit) rather than continuing into a next generation. -/
theorem C3_send_failure_exits_process :
    Reachable cfgStdin sReadyStdin ∧
    ((handleEvent cfgStdin (some "-") true none (Ev.pipeLine "hello world")
        (fun _ => false) true).txbuf = some "hello world" ∧
     (handleEvent cfgStdin (some "-") true none (Ev.pipeLine "hello world")
        (fun _ => false) true).newIRC = true ∧
     (handleEvent cfgStdin (some "-") true none (Ev.pipeLine "hello world")
        (fun _ => false) true).err = some Err.other) ∧
    (loopIter cfgStdin sReadyStdin oSendFail).result = Sum.inl (-1) ∧
    (handleEvent cfgStdin (some "-") true none (Ev.pipeLine "hello world")
        (fun _ => true) true).txbuf = none :=
  ⟨reach_sReadyStdin, ⟨by decide, by decide, by decide⟩, by decide, by decide⟩

/-! ## Claim C5 (code bug)

Stdin EOF does exit with status 0.  But a read error on a non-stdin pipe
falls through the missing `break` (ircstatus.go 758–769): the zero-value
line `""` is stored in `txbuf` and sent as an empty PRIVMSG; if that
write succeeds the wrapped pipe error is overwritten by `nil` and the
loop continues with `newPipe = true` (reopening the source) — but if the
write fails, `mymain` returns `-1` and the process exits instead of
reopening the source. -/

/-- C5: at the reachable ready states, (a) stdin EOF makes the iteration
return exit code `0` with nothing sent; (b) a non-stdin pipe read error
with a broken transport makes the iteration return `-1` (process exit,
contradicting the claimed supervisor-level reconnect); (c) the same pipe
error with a healthy transport continues with `newPipe` set — after
transmitting a spurious empty PRIVMSG. -/
theorem C5_eof_exit_and_pipe_error_path :
    Reachable cfgStdin sReadyStdin ∧ Reachable cfgPath sReadyPath ∧
    ((loopIter cfgStdin sReadyStdin oStdinEOF).result = Sum.inl 0 ∧
     (loopIter cfgStdin sReadyStdin oStdinEOF).sent = []) ∧
    (loopIter cfgPath sReadyPath oPipeErrSendFail).result = Sum.inl (-1) ∧
    ((loopIter cfgPath sReadyPath oPipeErrSendOk).result
        = Sum.inr { sReadyPath with newPipe := true } ∧
     (loopIter cfgPath sReadyPath oPipeErrSendOk).sent = [""]) :=
  ⟨reach_sReadyStdin, reach_sReadyPath, ⟨by decide, by decide⟩, by decide,
    ⟨by decide, by decide⟩⟩

/-! ## Claim C6 (code bug)

A 433 line unconditionally sets `irc.RandomNumbers = true` and re-runs
`irc.Handshake()` (no retry ceiling — the reaction is the same in every
state); a successful retry is invisible to the loop (`newIRC` stays
false, no error).  But when the handshake retry fails, `handleEvent`
returns `newIRC = true` together with a non-nil `err`, and `mymain`'s
error check returns `-1`: the process exits instead of degrading to a
reconnect. -/

/-- C6: at the reachable ready state, an inbound 433 line forces the
random-number-suffix policy and re-runs the handshake; with the retry
succeeding the loop continues unchanged (invisible), and with the retry
failing the iteration returns exit code `-1` (process exit, contradicting
the claimed degradation to a transport failure). -/
theorem C6_nick_collision_retry_then_exit :
    Reachable cfgStdin sReadyStdin ∧
    matchNickInUse line433 = true ∧
    ((handleEvent cfgStdin (some "-") true none (Ev.ircLine line433)
        (fun _ => true) true).forceNums = true ∧
     (handleEvent cfgStdin (some "-") true none (Ev.ircLine line433)
        (fun _ => true) true).handshakeRetried = true ∧
     (loopIter cfgStdin sReadyStdin o433Ok).result = Sum.inr sReadyStdin) ∧
    ((handleEvent cfgStdin (some "-") true none (Ev.ircLine line433)
        (fun _ => true) false).newIRC = true ∧
     (handleEvent cfgStdin (some "-") true none (Ev.ircLine line433)
        (fun _ => true) false).err = some Err.other ∧
     (loopIter cfgStdin sReadyStdin o433Fail).result = Sum.inl (-1)) :=
  ⟨reach_sReadyStdin, by decide, ⟨by decide, by decide, by decide⟩,
    ⟨by decide, by decide, by decide⟩⟩

/-! ## Claim C9 (corrected)

In this version of the program, `makePipe` runs inside the supervisor
loop (ircstatus.go 697–712) and a failure — first attempt included —
logs, sleeps `*gc.wait` and retries (`newPipe = true; continue`); it is
never fatal.  `createPipe` / `makePipe` (makepipe.go) only return error
values, they never exit the process. -/

/-- C9 counterexample: the first `makePipe` attempt of a run (reachable
state `sJoined`: connected, 353 seen, no pipe yet) fails, and the loop
iteration *continues* with `newPipe` set — it does not exit the process,
contradicting "fatal at startup". -/
theorem C9_counterexample_first_pipe_failure_retries :
    Reachable cfgPath sJoined ∧
    (loopIter cfgPath sJoined oPipeFail).result
      = Sum.inr { sJoined with newPipe := true } ∧
    (loopIter cfgPath sJoined oPipeFail).sent = [] :=
  ⟨reach_sJoined_path, by decide, by decide⟩

/-- C9 amended: a failure to create, open, or flush the input pipe is
never fatal — on every failed `makePipe` attempt (the first one at
startup included) the loop sleeps the configured wait, marks the pipe for
re-creation and continues, transmitting nothing. -/
theorem C9_amended_pipe_failure_always_retries (cfg : Config) (s : St)
    (o : Oracle) (s1 : St)
    (hc : afterConnect cfg s o.connectOk = Sum.inr s1)
    (hready : s1.ircReady = true)
    (hneed : s1.pipe = none ∨ s1.newPipe = true)
    (hfail : o.pipeOk = false) :
    (loopIter cfg s o).result = Sum.inr { s1 with newPipe := true } ∧
    (loopIter cfg s o).sent = [] := by
  have hp : afterPipe cfg s1 o.pipeOk = Sum.inl { s1 with newPipe := true } := by
    rcases afterPipe_spec cfg s1 o.pipeOk with
      ⟨_, _, h⟩ | ⟨_, hb, _⟩ | ⟨hcond, _⟩
    · exact h
    · rw [hfail] at hb; cases hb
    · exfalso
      rcases hneed with h1 | h1 <;> simp [hready, h1] at hcond
  constructor <;> simp only [loopIter, hc, hp]

theorem C9_amended_pipe_failure_always_retries_witness :
    afterConnect cfgPath sJoined oPipeFail.connectOk = Sum.inr sJoined ∧
    sJoined.ircReady = true ∧
    (sJoined.pipe = none ∨ sJoined.newPipe = true) ∧
    oPipeFail.pipeOk = false ∧
    ((loopIter cfgPath sJoined oPipeFail).result
        = Sum.inr { sJoined with newPipe := true } ∧
     (loopIter cfgPath sJoined oPipeFail).sent = []) :=
  ⟨by decide, by decide, by decide, by decide,
    C9_amended_pipe_failure_always_retries cfgPath sJoined oPipeFail sJoined
      (by decide) (by decide) (by decide) (by decide)⟩

/-! ## Claim C8 (corrected)

`createPipe` calls `syscall.Mkfifo(pname, 0644)`: mode `0644` grants the
owner read-write but the group only read — not the claimed group
read-write. -/

/-- C8 counterexample: on an empty file system, `createPipe` succeeds at a
fresh path and the FIFO it creates has mode `0644`, whose group-write bit
is clear — contradicting "read-write for both owner and group". -/
theorem C8_counterexample_group_write_missing :
    createPipe [] "/tmp/ircstatus"
      = Except.ok [("/tmp/ircstatus", Entry.fifo 0o644)] ∧
    permGroupWrite 0o644 = false :=
  ⟨rfl, by decide⟩

/-- C8 amended: for every file system and path with no entry at the path,
a successful `createPipe` leaves a FIFO at the path with mode `0644`:
read-write for the owner, read-only for the group. -/
theorem C8_amended_fifo_mode_0644 (fs : FS) (p : String) (fs2 : FS)
    (h0 : statE fs p = none) (h : createPipe fs p = Except.ok fs2) :
    statE fs2 p = some (Entry.fifo 0o644) ∧
    permOwnerRead 0o644 = true ∧ permOwnerWrite 0o644 = true ∧
    permGroupRead 0o644 = true ∧ permGroupWrite 0o644 = false := by
  refine ⟨?_, by decide, by decide, by decide, by decide⟩
  have hstat : statE (mkfifoFS fs p 0o644) p = some (Entry.fifo 0o644) := by
    simp [statE, mkfifoFS, List.find?]
  unfold createPipe at h
  rw [h0] at h
  simp only [hstat] at h
  simp at h
  rw [← h]
  exact hstat

theorem C8_amended_fifo_mode_0644_witness :
    statE [] "/tmp/p" = none ∧
    createPipe [] "/tmp/p" = Except.ok [("/tmp/p", Entry.fifo 0o644)] ∧
    (statE [("/tmp/p", Entry.fifo 0o644)] "/tmp/p"
        = some (Entry.fifo 0o644) ∧
     permOwnerRead 0o644 = true ∧ permOwnerWrite 0o644 = true ∧
     permGroupRead 0o644 = true ∧ permGroupWrite 0o644 = false) :=
  ⟨rfl, rfl, C8_amended_fifo_mode_0644 [] "/tmp/p"
    [("/tmp/p", Entry.fifo 0o644)] rfl rfl⟩

/-! ## Claim C7 (code bug)

`reader` (the historical version, ircstatus.go 277–295) answers a PING
with `w.PrintfLine("PONG ", l[5:])`: the format string has no verb, so
Go's `fmt` emits the format (plus the appended `"\r\n"`) verbatim and
reports the surplus operand as `%!(EXTRA string=<token>)` after it.  The
bytes written are `"PONG \r\n%!(EXTRA string=<token>)"`, not the line
`PONG <token>`. -/

/-- C7: a `PING` line (matched case-insensitively) triggers exactly one
write and nothing else, but the written bytes are the malformed
`"PONG \r\n%!(EXTRA string=<token>)"` rather than a `PONG <token>`
line. -/
theorem C7_pong_reply_malformed :
    readerReact "PING :tok123" = ["PONG \r\n%!(EXTRA string=:tok123)"] ∧
    readerReact "PING :tok123" ≠ ["PONG :tok123\r\n"] ∧
    readerReact "pInG :tok123" = ["PONG \r\n%!(EXTRA string=:tok123)"] ∧
    readerReact "NOTICE hello" = [] :=
  ⟨by decide, by decide, by decide, by decide⟩

/-! ## Claim C10 -/

/-- C10: the 353 handler compares the line against the member-list
pattern only, never against the configured channel: the line
`":s 353 n = #other :a b"` — which names `#other` and does not even
contain the configured channel `##ircstatushub` — sets `ircReady` under
every configuration and in the not-ready state. -/
theorem C10_any_353_sets_ready :
    (∀ (cfg : Config) (pipe : Option String) (tb : Option String)
        (sk : Nat → Bool) (hk : Bool),
      (handleEvent cfg pipe false tb (Ev.ircLine line353Other) sk hk).ircReady
        = true) ∧
    matchChannelJoined line353Other = true ∧
    matchString (litRE "##ircstatushub".data) line353Other = false := by
  refine ⟨?_, by decide, by decide⟩
  intro cfg pipe tb sk hk
  have h353 : matchChannelJoined line353Other = true := by decide
  have h433 : matchNickInUse line353Other = false := by decide
  simp [handleEvent, ircReact, h353, h433]

theorem C10_any_353_sets_ready_witness :
    (handleEvent cfgStdin (some "-") false none (Ev.ircLine line353Other)
        (fun _ => true) true).ircReady = true ∧
    matchChannelJoined line353Other = true ∧
    matchString (litRE "##ircstatushub".data) line353Other = false :=
  ⟨C10_any_353_sets_ready.1 cfgStdin (some "-") none (fun _ => true) true,
    C10_any_353_sets_ready.2.1, C10_any_353_sets_ready.2.2⟩

end Ircstatus
